import Mathlib

/-!
# Account manager: event handlers of `accountmanager/manager.go`

A shallow embedding of the `AccountManager` of the relay cluster: the eight
event handlers registered by `Start`, `Initialize` and `UnlockedWallet`.

Conventions of the embedding.

* A Go pointer that may be nil is an `Option`; reading a field through a nil
  pointer is the outcome `Outcome.panic`.
* `*big.Int` values are unbounded, so block numbers are `Int`; `int64`
  durations are `Int` (the only arithmetic on them is the constant
  `3600 * 24 * 100`).
* The manager and its `block` are threaded through the handlers as a `World`,
  together with the chronological list of calls the handler made to its
  collaborators (the dirty-key tracker, the reconciliation engine, the
  retention sweep, the chain accessor, the shared store).
* Logging changes nothing in the world and is left out, except where the
  arguments of a log call read through a pointer.
* Values owned by other packages (`types.TX_STATUS_SUCCESS`, `types.NilAddress`,
  `loopringaccessor.GetSpenderAddress`, `common.IsHexAddress`, ...) are the
  fields of an environment `Env`.
-/

namespace accountmanager

/-! ## Data model -/

/-- A chain address (`common.Address`, twenty bytes), kept as the number its bytes encode. -/
structure Address where
  val : Nat
deriving DecidableEq, Repr

/-- The type `types.TxStatus` (an unsigned byte). -/
abbrev TxStatus := Nat

/-- A balance key: owner and token. -/
abbrev BalanceKey := Address × Address

/-- An allowance key: owner, token and spender. -/
abbrev AllowanceKey := Address × Address × Address

/-- The fields of `types.TransferEvent` the handlers read. -/
structure TransferEvent where
  Protocol : Address
  From : Address
  To : Address
  Status : TxStatus
  Sender : Address
  Receiver : Address
deriving DecidableEq, Repr

/-- The fields of `types.ApprovalEvent` the handlers read. -/
structure ApprovalEvent where
  Protocol : Address
  Status : TxStatus
  Owner : Address
  Spender : Address
deriving DecidableEq, Repr

/-- The fields of `types.WethDepositEvent` the handlers read. -/
structure WethDepositEvent where
  Protocol : Address
  From : Address
  Status : TxStatus
  Dst : Address
deriving DecidableEq, Repr

/-- The fields of `types.WethWithdrawalEvent` the handlers read. -/
structure WethWithdrawalEvent where
  Protocol : Address
  From : Address
  Status : TxStatus
  Src : Address
deriving DecidableEq, Repr

/-- The field of `types.BlockEvent` the handlers read (`BlockNumber *big.Int`). -/
structure BlockEvent where
  BlockNumber : Option Int
deriving DecidableEq, Repr

/-- The fields of `types.ForkedEvent` the handlers read (both `*big.Int`). -/
structure ForkedEvent where
  DetectedBlock : Option Int
  ForkBlock : Option Int
deriving DecidableEq, Repr

/-- The option read by `Initialize` (`options.CacheDuration`, an `int64`). -/
structure AccountManagerOptions where
  CacheDuration : Int
deriving DecidableEq, Repr

/-- Modelled from the spec: the declaration of `ChangedOfBlock` is not in
`manager.go`. The two fields `currentBlockNumber` and `cachedDuration` (both
`*big.Int`) are the ones `manager.go` reads and writes; the two dirty sets are
the spec's PendingBlockState, "a set of BalanceKeys and a set of AllowanceKeys
accumulated since the last reconciliation, plus the BlockCursor value". -/
structure ChangedOfBlock where
  currentBlockNumber : Option Int
  cachedDuration : Option Int
  balanceKeys : List BalanceKey
  allowanceKeys : List AllowanceKey
deriving DecidableEq, Repr

/-- The struct `AccountManager`; `block` is the `ChangedOfBlock` its pointer refers to. -/
structure AccountManager where
  cacheDuration : Int
  block : ChangedOfBlock
deriving DecidableEq, Repr

/-- A call a handler makes to a collaborator, with the arguments it passes; a
reconciliation call is recorded with the block number of its receiver. -/
inductive Call where
  | saveBalanceKey (owner token : Address)
  | saveAllowanceKey (owner token spender : Address)
  | GetSpenderAddress (target : Address)
  | syncAndSaveBalances (currentBlockNumber : Option Int)
  | syncAndSaveAllowances (currentBlockNumber : Option Int)
  | removeExpiredBlock (currentBlockNumber : Option Int) (duration : Option Int)
  | cacheSet (key : String) (value : String) (ttl : Int)
deriving DecidableEq, Repr

/-- The manager together with the calls made so far, oldest first. -/
structure World where
  manager : AccountManager
  calls : List Call
deriving DecidableEq, Repr

/-- How a call of a handler ends: it returns, or the goroutine panics. -/
inductive Outcome (α : Type) where
  | returned (a : α)
  | panic
deriving DecidableEq, Repr

/-- What a handler returns: its `error` (`none` is nil) and the world it leaves. -/
abbrev Handled := Outcome (Option String × World)

/-- What other packages provide to `manager.go`. -/
structure Env where
  /-- Result of `log.IsInit()`. -/
  logIsInit : Bool
  /-- Result of `rcache.IsInit()`. -/
  cacheIsInit : Bool
  /-- Result of `loopringaccessor.IsInit()`. -/
  accessorIsInit : Bool
  /-- Result of `marketutil.IsInit()`. -/
  marketutilIsInit : Bool
  /-- Result of `zklock.IsInit()`. -/
  zklockIsInit : Bool
  /-- The constant `types.TX_STATUS_SUCCESS`. -/
  TX_STATUS_SUCCESS : TxStatus
  /-- The sentinel `types.NilAddress`, the token of the native asset. -/
  NilAddress : Address
  /-- The lookup `loopringaccessor.GetSpenderAddress`: the spender, or an error. -/
  GetSpenderAddress : Address → Except String Address
  /-- The test `common.IsHexAddress`. -/
  IsHexAddress : String → Bool
  /-- The parser `common.HexToAddress`. -/
  HexToAddress : String → Address
  /-- The key `unlockCacheKey` builds for an owner (its body is not in `manager.go`). -/
  unlockCacheKey : Address → String

/-! ## Collaborators of the handlers -/

/-- The value `&ChangedOfBlock{}`: every field zero. -/
def ChangedOfBlock.zero : ChangedOfBlock :=
  { currentBlockNumber := none, cachedDuration := none, balanceKeys := [], allowanceKeys := [] }

/-- Modelled from the spec: `saveBalanceKey` is not in `manager.go`. The spec's
`markBalanceDirty(owner, token)` is a pure set insertion, "inserting the same
key twice has no additional effect", with no error condition. -/
def ChangedOfBlock.saveBalanceKey (b : ChangedOfBlock) (owner token : Address) : ChangedOfBlock :=
  if (owner, token) ∈ b.balanceKeys then b
  else { b with balanceKeys := b.balanceKeys ++ [(owner, token)] }

/-- Modelled from the spec: `saveAllowanceKey` is not in `manager.go`. The spec's
`markAllowanceDirty(owner, token, spender)` is a pure set insertion with no
error condition. -/
def ChangedOfBlock.saveAllowanceKey (b : ChangedOfBlock) (owner token spender : Address) :
    ChangedOfBlock :=
  if (owner, token, spender) ∈ b.allowanceKeys then b
  else { b with allowanceKeys := b.allowanceKeys ++ [(owner, token, spender)] }

/-- Modelled from the spec: `syncAndSaveBalances` is not in `manager.go`. The
spec's reconciliation re-derives every dirty balance key of the receiver for its
block number and then clears the dirty set; a key that fails is logged and does
not stop the others. The call is recorded with the block number. -/
def ChangedOfBlock.syncAndSaveBalances (b : ChangedOfBlock) (calls : List Call) :
    ChangedOfBlock × List Call :=
  ({ b with balanceKeys := [] },
    calls ++ [Call.syncAndSaveBalances b.currentBlockNumber])

/-- Modelled from the spec: `syncAndSaveAllowances` is not in `manager.go`. As
`syncAndSaveBalances`, for the dirty allowance keys. -/
def ChangedOfBlock.syncAndSaveAllowances (b : ChangedOfBlock) (calls : List Call) :
    ChangedOfBlock × List Call :=
  ({ b with allowanceKeys := [] },
    calls ++ [Call.syncAndSaveAllowances b.currentBlockNumber])

/-- Modelled from the spec: `removeExpiredBlock` is not in `manager.go`. The
spec's `sweep(currentBlock, window)` removes block-scoped bookkeeping of the
shared store and touches nothing of the manager; the call is recorded with its
two arguments. -/
def removeExpiredBlock (currentBlockNumber duration : Option Int) (calls : List Call) :
    List Call :=
  calls ++ [Call.removeExpiredBlock currentBlockNumber duration]

/-- The statement `a.block.saveBalanceKey(owner, token)`. -/
def World.saveBalanceKey (w : World) (owner token : Address) : World :=
  { manager := { w.manager with block := w.manager.block.saveBalanceKey owner token },
    calls := w.calls ++ [Call.saveBalanceKey owner token] }

/-- The statement `a.block.saveAllowanceKey(owner, token, spender)`. -/
def World.saveAllowanceKey (w : World) (owner token spender : Address) : World :=
  { manager := { w.manager with block := w.manager.block.saveAllowanceKey owner token spender },
    calls := w.calls ++ [Call.saveAllowanceKey owner token spender] }

/-- The statement `a.block.syncAndSaveBalances()`. -/
def World.syncAndSaveBalances (w : World) : World :=
  { manager := { w.manager with block := (w.manager.block.syncAndSaveBalances w.calls).1 },
    calls := (w.manager.block.syncAndSaveBalances w.calls).2 }

/-- The statement `a.block.syncAndSaveAllowances()`. -/
def World.syncAndSaveAllowances (w : World) : World :=
  { manager := { w.manager with block := (w.manager.block.syncAndSaveAllowances w.calls).1 },
    calls := (w.manager.block.syncAndSaveAllowances w.calls).2 }

/-! ## `manager.go` -/

/-- The constant `ZK_ACCOUNT_MANAGER`. -/
def ZK_ACCOUNT_MANAGER : String := "account_manager"

/-- The function `isPackegeReady`: `none` is nil, `some msg` the error. -/
def isPackegeReady (env : Env) : Option String :=
  if !env.logIsInit then
    some "log must be init first"
  else if !env.cacheIsInit || !env.accessorIsInit || !env.marketutilIsInit
      || !env.zklockIsInit then
    some "cache、loopringaccessor、 marketutil and zklock must be init first"
  else
    none

/-- The function `Initialize`. `log.Fatalf` ends the process: that is the
`Except.error` result. The returned manager and the package variable
`accManager` share the one `ChangedOfBlock`. -/
def Initialize (env : Env) (options : AccountManagerOptions) : Except String AccountManager :=
  match isPackegeReady env with
  | some err => Except.error err
  | none =>
    let cacheDuration : Int :=
      if options.CacheDuration > 0 then options.CacheDuration else 3600 * 24 * 100
    let b : ChangedOfBlock := { ChangedOfBlock.zero with cachedDuration := some 500 }
    Except.ok { cacheDuration := cacheDuration, block := b }

/-- The method `handleTokenTransfer`; `input` is the typed pointer the type
assertion yields. -/
def handleTokenTransfer (env : Env) (input : Option TransferEvent) (w : World) : Handled :=
  match input with
  | none => Outcome.returned (none, w)
  | some event =>
    if event.Status ≠ env.TX_STATUS_SUCCESS then
      Outcome.returned (none, w)
    else
      let w := w.saveBalanceKey event.Sender event.Protocol
      let w := w.saveBalanceKey event.From env.NilAddress
      let w := w.saveBalanceKey event.Receiver event.Protocol
      let w := { w with calls := w.calls ++ [Call.GetSpenderAddress event.To] }
      match env.GetSpenderAddress event.To with
      | Except.ok spender =>
        Outcome.returned (none, w.saveAllowanceKey event.Sender event.Protocol spender)
      | Except.error _ => Outcome.returned (none, w)

/-- The method `handleApprove`. The arguments of its first statement,
`log.Debugf(..., event.Protocol.Hex(), event.Owner.Hex())`, read two fields of
the event before `event == nil` is tested: a nil event panics there. -/
def handleApprove (env : Env) (input : Option ApprovalEvent) (w : World) : Handled :=
  match input with
  | none => Outcome.panic
  | some event =>
    if event.Status ≠ env.TX_STATUS_SUCCESS then
      Outcome.returned (none, w)
    else
      let w := w.saveAllowanceKey event.Owner event.Protocol event.Spender
      let w := w.saveBalanceKey event.Owner env.NilAddress
      Outcome.returned (none, w)

/-- The method `handleWethDeposit`. -/
def handleWethDeposit (env : Env) (input : Option WethDepositEvent) (w : World) : Handled :=
  match input with
  | none => Outcome.returned (none, w)
  | some event =>
    if event.Status ≠ env.TX_STATUS_SUCCESS then
      Outcome.returned (none, w)
    else
      let w := w.saveBalanceKey event.Dst event.Protocol
      let w := w.saveBalanceKey event.From env.NilAddress
      Outcome.returned (none, w)

/-- The method `handleWethWithdrawal`. -/
def handleWethWithdrawal (env : Env) (input : Option WethWithdrawalEvent) (w : World) : Handled :=
  match input with
  | none => Outcome.returned (none, w)
  | some event =>
    if event.Status ≠ env.TX_STATUS_SUCCESS then
      Outcome.returned (none, w)
    else
      let w := w.saveBalanceKey event.Src event.Protocol
      let w := w.saveBalanceKey event.From env.NilAddress
      Outcome.returned (none, w)

/-- The method `handleBlockEnd`. Its log call reads `event.BlockNumber`, so a nil
event panics; `String` of a nil `*big.Int` does not. -/
def handleBlockEnd (input : Option BlockEvent) (w : World) : Handled :=
  match input with
  | none => Outcome.panic
  | some _ =>
    let w := w.syncAndSaveBalances
    let w := w.syncAndSaveAllowances
    let calls :=
      removeExpiredBlock w.manager.block.currentBlockNumber w.manager.block.cachedDuration w.calls
    Outcome.returned (none, { w with calls := calls })

/-- The method `handleBlockNew`. `new(big.Int).Set(x)` reads through `x`: a nil
block number panics, as does a nil event. -/
def handleBlockNew (input : Option BlockEvent) (w : World) : Handled :=
  match input with
  | none => Outcome.panic
  | some event =>
    match event.BlockNumber with
    | none => Outcome.panic
    | some n =>
      let b : ChangedOfBlock := { w.manager.block with currentBlockNumber := some n }
      Outcome.returned (none, { w with manager := { w.manager with block := b } })

/-- The method `handleEthTransfer`: no nil test and no status test. -/
def handleEthTransfer (env : Env) (input : Option TransferEvent) (w : World) : Handled :=
  match input with
  | none => Outcome.panic
  | some event =>
    let w := w.saveBalanceKey event.From env.NilAddress
    let w := w.saveBalanceKey event.To env.NilAddress
    Outcome.returned (none, w)

/-- The method `UnlockedWallet`. What `rcache.Set` returns is discarded, so the
named result `err` stays nil after the write. -/
def UnlockedWallet (env : Env) (owner : String) (w : World) : Handled :=
  if !env.IsHexAddress owner then
    Outcome.returned (some "owner isn't a valid hex-address", w)
  else
    Outcome.returned (none,
      { w with calls := w.calls ++
        [Call.cacheSet (env.unlockCacheKey (env.HexToAddress owner)) "true"
          w.manager.cacheDuration] })

/-- The loop of `handleBlockFork`, entered with `i` and the calls made so far:
`for i.Cmp(event.ForkBlock) >= 0 { ...; i.Sub(i, 1) }`. Each round reconciles a
fresh `ChangedOfBlock` whose block number is `i`; the struct shares the pointer
`i`, and both reconciliations of a round run before `i.Sub` lowers it. -/
def forkLoop (forkBlock : Int) (i : Int) (calls : List Call) : List Call :=
  if forkBlock ≤ i then
    let changedOfBlock : ChangedOfBlock := { ChangedOfBlock.zero with currentBlockNumber := some i }
    let r := changedOfBlock.syncAndSaveBalances calls
    let r := r.1.syncAndSaveAllowances r.2
    forkLoop forkBlock (i - 1) r.2
  else
    calls
termination_by (i - forkBlock + 1).toNat
decreasing_by omega

/-- The method `handleBlockFork`. The log call reads `event.DetectedBlock`;
`Set` and `Cmp` read through their argument, so a nil block number panics. -/
def handleBlockFork (input : Option ForkedEvent) (w : World) : Handled :=
  match input with
  | none => Outcome.panic
  | some event =>
    match event.DetectedBlock with
    | none => Outcome.panic
    | some detectedBlock =>
      match event.ForkBlock with
      | none => Outcome.panic
      | some forkBlock =>
        Outcome.returned (none, { w with calls := forkLoop forkBlock detectedBlock w.calls })

/-- The topics `Start` subscribes to, each carrying the typed pointer its
handler asserts. -/
inductive Event where
  | Transfer (e : Option TransferEvent)
  | Approve (e : Option ApprovalEvent)
  | EthTransfer (e : Option TransferEvent)
  | Block_End (e : Option BlockEvent)
  | Block_New (e : Option BlockEvent)
  | WethDeposit (e : Option WethDepositEvent)
  | WethWithdrawal (e : Option WethWithdrawalEvent)
  | ChainForkDetected (e : Option ForkedEvent)
deriving DecidableEq, Repr

/-- The routing `Start` registers with `eventemitter.On`: one watcher per topic,
none concurrent, so the handlers run one at a time. -/
def Start (env : Env) (ev : Event) (w : World) : Handled :=
  match ev with
  | Event.Transfer e => handleTokenTransfer env e w
  | Event.Approve e => handleApprove env e w
  | Event.EthTransfer e => handleEthTransfer env e w
  | Event.Block_End e => handleBlockEnd e w
  | Event.Block_New e => handleBlockNew e w
  | Event.WethDeposit e => handleWethDeposit env e w
  | Event.WethWithdrawal e => handleWethWithdrawal env e w
  | Event.ChainForkDetected e => handleBlockFork e w

/-- What can happen to a started manager: an event is delivered, or a caller
unlocks a wallet. -/
inductive Action where
  | emit (ev : Event)
  | UnlockedWallet (owner : String)
deriving DecidableEq, Repr

/-- One action on the manager. -/
def step (env : Env) (a : Action) (w : World) : Handled :=
  match a with
  | Action.emit ev => Start env ev w
  | Action.UnlockedWallet owner => UnlockedWallet env owner w

/-- The actions of a list, in order; a panic ends the run. -/
def run (env : Env) : List Action → World → Outcome World
  | [], w => Outcome.returned w
  | a :: rest, w =>
    match step env a w with
    | Outcome.returned r => run env rest r.2
    | Outcome.panic => Outcome.panic

/-! ## Vocabulary of the properties -/

/-- The BlockCursor of the manager: `a.block.currentBlockNumber` (nil before the
first block-new event). -/
def World.BlockCursor (w : World) : Option Int :=
  w.manager.block.currentBlockNumber

/-- The order of two cursor values: nil is below everything. -/
def cursorLE : Option Int → Option Int → Bool
  | none, _ => true
  | some _, none => false
  | some a, some b => decide (a ≤ b)

/-- The cursor after each action of a run, in order, up to the first panic. -/
def cursorsAlong (env : Env) : List Action → World → List (Option Int)
  | [], _ => []
  | a :: rest, w =>
    match step env a w with
    | Outcome.returned r => r.2.BlockCursor :: cursorsAlong env rest r.2
    | Outcome.panic => []

/-- The block numbers the block-new events of a list carry, in order. -/
def blockNewNumbers : List Action → List Int
  | [] => []
  | Action.emit (Event.Block_New (some { BlockNumber := some n })) :: rest =>
    n :: blockNewNumbers rest
  | _ :: rest => blockNewNumbers rest

/-- The block numbers from `detectedBlock` down to `forkBlock`, one apart. -/
def forkBlocks (detectedBlock forkBlock : Int) : List Int :=
  (List.range (detectedBlock - forkBlock + 1).toNat).map
    fun (k : Nat) => detectedBlock - (k : Int)

/-- One reconciliation of the fork replay for block `i`: balances, then
allowances, of a fresh `ChangedOfBlock`. -/
def forkReconciliation (i : Int) : List Call :=
  [Call.syncAndSaveBalances (some i), Call.syncAndSaveAllowances (some i)]

/-- What of the manager no handler but `handleBlockNew` may change: from `w` to
`w1` the cursor, the retention window and the unlock TTL are the same. -/
def Framed (w w1 : World) : Prop :=
  w1.BlockCursor = w.BlockCursor
  ∧ w1.manager.block.cachedDuration = w.manager.block.cachedDuration
  ∧ w1.manager.cacheDuration = w.manager.cacheDuration

/-- A world a manager built by `Initialize` can be in: the initial one, after
any actions none of which panicked. -/
def Reachable (env : Env) (options : AccountManagerOptions) (w : World) : Prop :=
  ∃ m acts, Initialize env options = Except.ok m
    ∧ run env acts { manager := m, calls := [] } = Outcome.returned w

/-- From `w` to `w1` exactly the calls `calls` were made, the dirty balance keys
grew by exactly `bal`, the dirty allowance keys by exactly `allow`, and nothing
else of the manager changed. -/
def Marked (w w1 : World) (calls : List Call) (bal : List BalanceKey)
    (allow : List AllowanceKey) : Prop :=
  w1.calls = w.calls ++ calls
  ∧ (∀ k, k ∈ w1.manager.block.balanceKeys ↔ k ∈ w.manager.block.balanceKeys ∨ k ∈ bal)
  ∧ (∀ k, k ∈ w1.manager.block.allowanceKeys ↔ k ∈ w.manager.block.allowanceKeys ∨ k ∈ allow)
  ∧ w1.manager.block.currentBlockNumber = w.manager.block.currentBlockNumber
  ∧ w1.manager.block.cachedDuration = w.manager.block.cachedDuration
  ∧ w1.manager.cacheDuration = w.manager.cacheDuration

/-! ## A concrete environment, for evaluating the handlers -/

/-- A hexadecimal digit, as `isHexCharacter` of go-ethereum. -/
def isHexCharacter (c : Char) : Bool :=
  ('0' ≤ c && c ≤ '9') || ('a' ≤ c && c ≤ 'f') || ('A' ≤ c && c ≤ 'F')

/-- Whether the text starts with `0x` or `0X`. -/
def has0x : List Char → Bool
  | '0' :: 'x' :: _ => true
  | '0' :: 'X' :: _ => true
  | _ => false

/-- The test `common.IsHexAddress` of go-ethereum on a text of one-byte
characters: after an optional `0x`, forty hexadecimal digits. -/
def exampleIsHexAddress (s : String) : Bool :=
  let cs := if has0x s.toList then s.toList.drop 2 else s.toList
  cs.length == 40 && cs.all isHexCharacter

/-- The value of a hexadecimal digit. -/
def hexDigit (c : Char) : Nat :=
  if '0' ≤ c && c ≤ '9' then c.toNat - '0'.toNat
  else if 'a' ≤ c && c ≤ 'f' then c.toNat - 'a'.toNat + 10
  else if 'A' ≤ c && c ≤ 'F' then c.toNat - 'A'.toNat + 10
  else 0

/-- The address a well-formed hexadecimal text denotes. -/
def exampleHexToAddress (s : String) : Address :=
  let cs := if has0x s.toList then s.toList.drop 2 else s.toList
  { val := (cs.foldl (fun acc c => 16 * acc + hexDigit c) 0) % 2 ^ 160 }

/-- An environment with every package initialised, success status 2, the zero
address as native asset, and a chain on which only the contract at address 7
has a spender (address 8). -/
def exampleEnv : Env :=
  { logIsInit := true
    cacheIsInit := true
    accessorIsInit := true
    marketutilIsInit := true
    zklockIsInit := true
    TX_STATUS_SUCCESS := 2
    NilAddress := { val := 0 }
    GetSpenderAddress := fun a =>
      if a.val = 7 then Except.ok { val := 8 } else Except.error "no spender"
    IsHexAddress := exampleIsHexAddress
    HexToAddress := exampleHexToAddress
    unlockCacheKey := fun a => "unlock_" ++ toString a.val }

/-- The manager `Initialize` builds in `exampleEnv` for a 60-second unlock TTL,
before any event. -/
def exampleManager : AccountManager :=
  { cacheDuration := 60
    block := { currentBlockNumber := none, cachedDuration := some 500, balanceKeys := [],
               allowanceKeys := [] } }

/-- A world whose cursor is `n`, with no dirty key and no call made. -/
def worldAt (n : Int) : World :=
  { manager := { exampleManager with
      block := { exampleManager.block with currentBlockNumber := some n } }
    calls := [] }

/-- A transfer whose recipient contract (address 7) has a spender in `exampleEnv`. -/
def exampleTransfer (status : TxStatus) : TransferEvent :=
  { Protocol := { val := 1 }, From := { val := 2 }, To := { val := 7 }, Status := status,
    Sender := { val := 3 }, Receiver := { val := 4 } }

/-- An approval by owner 3 of spender 8 for the token at address 1. -/
def exampleApproval (status : TxStatus) : ApprovalEvent :=
  { Protocol := { val := 1 }, Status := status, Owner := { val := 3 }, Spender := { val := 8 } }

/-- A wrap deposit sent by address 2 to the credit of address 5, wrapped token at address 9. -/
def exampleDeposit (status : TxStatus) : WethDepositEvent :=
  { Protocol := { val := 9 }, From := { val := 2 }, Status := status, Dst := { val := 5 } }

/-- A wrap withdrawal sent by address 2 from the account 6, wrapped token at address 9. -/
def exampleWithdrawal (status : TxStatus) : WethWithdrawalEvent :=
  { Protocol := { val := 9 }, From := { val := 2 }, Status := status, Src := { val := 6 } }

/-- The actions delivering block-new 10 and then block-new 5. -/
def backwardBlocks : List Action :=
  [Action.emit (Event.Block_New (some { BlockNumber := some 10 })),
   Action.emit (Event.Block_New (some { BlockNumber := some 5 }))]

/-- The actions delivering block-new 7 and then a successful approval. -/
def exampleActs : List Action :=
  [Action.emit (Event.Block_New (some { BlockNumber := some 7 })),
   Action.emit (Event.Approve (some (exampleApproval 2)))]

/-- The world of `exampleManager` after `exampleActs`. -/
def exampleWorld : World :=
  { manager :=
      { cacheDuration := 60
        block :=
          { currentBlockNumber := some 7, cachedDuration := some 500,
            balanceKeys := [({ val := 3 }, { val := 0 })],
            allowanceKeys := [({ val := 3 }, { val := 1 }, { val := 8 })] } }
    calls :=
      [Call.saveAllowanceKey { val := 3 } { val := 1 } { val := 8 },
       Call.saveBalanceKey { val := 3 } { val := 0 }] }

/-! ## Lemmas on the dirty-key tracker -/

theorem mem_saveBalanceKey (b : ChangedOfBlock) (owner token : Address) (k : BalanceKey) :
    k ∈ (b.saveBalanceKey owner token).balanceKeys ↔ k ∈ b.balanceKeys ∨ k = (owner, token) := by
  unfold ChangedOfBlock.saveBalanceKey
  split
  · constructor
    · intro h
      exact Or.inl h
    · rintro (h | h)
      · exact h
      · subst h
        assumption
  · simp

theorem mem_saveAllowanceKey (b : ChangedOfBlock) (owner token spender : Address)
    (k : AllowanceKey) :
    k ∈ (b.saveAllowanceKey owner token spender).allowanceKeys ↔
      k ∈ b.allowanceKeys ∨ k = (owner, token, spender) := by
  unfold ChangedOfBlock.saveAllowanceKey
  split
  · constructor
    · intro h
      exact Or.inl h
    · rintro (h | h)
      · exact h
      · subst h
        assumption
  · simp

theorem saveBalanceKey_frame (b : ChangedOfBlock) (owner token : Address) :
    (b.saveBalanceKey owner token).allowanceKeys = b.allowanceKeys
    ∧ (b.saveBalanceKey owner token).currentBlockNumber = b.currentBlockNumber
    ∧ (b.saveBalanceKey owner token).cachedDuration = b.cachedDuration := by
  unfold ChangedOfBlock.saveBalanceKey
  split <;> simp

theorem saveAllowanceKey_frame (b : ChangedOfBlock) (owner token spender : Address) :
    (b.saveAllowanceKey owner token spender).balanceKeys = b.balanceKeys
    ∧ (b.saveAllowanceKey owner token spender).currentBlockNumber = b.currentBlockNumber
    ∧ (b.saveAllowanceKey owner token spender).cachedDuration = b.cachedDuration := by
  unfold ChangedOfBlock.saveAllowanceKey
  split <;> simp

theorem Marked.start (w : World) : Marked w w [] [] [] := by
  simp [Marked]

theorem Marked.thenBalance {w w1 : World} {calls : List Call} {bal : List BalanceKey}
    {allow : List AllowanceKey} (h : Marked w w1 calls bal allow) (owner token : Address) :
    Marked w (w1.saveBalanceKey owner token) (calls ++ [Call.saveBalanceKey owner token])
      (bal ++ [(owner, token)]) allow := by
  obtain ⟨hc, hb, ha, hn, hd, ht⟩ := h
  obtain ⟨fa, fn, fd⟩ := saveBalanceKey_frame w1.manager.block owner token
  refine ⟨?_, ?_, ?_, ?_, ?_, ?_⟩
  · simp [World.saveBalanceKey, hc]
  · intro k
    simp only [World.saveBalanceKey, mem_saveBalanceKey, hb, List.mem_append,
      List.mem_singleton, or_assoc]
  · intro k
    simp only [World.saveBalanceKey, fa, ha]
  · simp only [World.saveBalanceKey, fn, hn]
  · simp only [World.saveBalanceKey, fd, hd]
  · simp only [World.saveBalanceKey, ht]

theorem Marked.thenAllowance {w w1 : World} {calls : List Call} {bal : List BalanceKey}
    {allow : List AllowanceKey} (h : Marked w w1 calls bal allow)
    (owner token spender : Address) :
    Marked w (w1.saveAllowanceKey owner token spender)
      (calls ++ [Call.saveAllowanceKey owner token spender]) bal
      (allow ++ [(owner, token, spender)]) := by
  obtain ⟨hc, hb, ha, hn, hd, ht⟩ := h
  obtain ⟨fb, fn, fd⟩ := saveAllowanceKey_frame w1.manager.block owner token spender
  refine ⟨?_, ?_, ?_, ?_, ?_, ?_⟩
  · simp [World.saveAllowanceKey, hc]
  · intro k
    simp only [World.saveAllowanceKey, fb, hb]
  · intro k
    simp only [World.saveAllowanceKey, mem_saveAllowanceKey, ha, List.mem_append,
      List.mem_singleton, or_assoc]
  · simp only [World.saveAllowanceKey, fn, hn]
  · simp only [World.saveAllowanceKey, fd, hd]
  · simp only [World.saveAllowanceKey, ht]

theorem Marked.thenCall {w w1 : World} {calls : List Call} {bal : List BalanceKey}
    {allow : List AllowanceKey} (h : Marked w w1 calls bal allow) (c : Call) :
    Marked w { w1 with calls := w1.calls ++ [c] } (calls ++ [c]) bal allow := by
  obtain ⟨hc, hb, ha, hn, hd, ht⟩ := h
  exact ⟨by simp [hc], hb, ha, hn, hd, ht⟩

/-! ## The dirty-key handlers -/

/-- C2: for every non-nil transfer event whose status is not success,
`handleTokenTransfer` returns nil and leaves the world as it found it: no call
is added (no balance key, no allowance key, no spender lookup) and the pending
block state is unchanged. -/
theorem C2_transfer_not_success_is_dropped (env : Env) (event : TransferEvent) (w : World)
    (h : event.Status ≠ env.TX_STATUS_SUCCESS) :
    handleTokenTransfer env (some event) w = Outcome.returned (none, w) := by
  simp [handleTokenTransfer, h]

/-- C2 at a failed transfer (status 3) in `exampleEnv`. -/
theorem C2_transfer_not_success_witness :
    (exampleTransfer 3).Status ≠ exampleEnv.TX_STATUS_SUCCESS
    ∧ handleTokenTransfer exampleEnv (some (exampleTransfer 3)) (worldAt 10)
        = Outcome.returned (none, worldAt 10) :=
  ⟨by decide,
    C2_transfer_not_success_is_dropped exampleEnv (exampleTransfer 3) (worldAt 10) (by decide)⟩

/-- C3: for every transfer event with status success, `handleTokenTransfer`
returns nil after marking the balance keys (sender, protocol), (from, native
asset), (receiver, protocol) in that order and looking up the spender of the
transfer's `To`; when the lookup yields a spender it then marks the allowance
key (sender, protocol, spender), and when the lookup fails it marks no allowance
key. Nothing else is called or changed. -/
theorem C3_transfer_success_marks (env : Env) (event : TransferEvent) (w : World)
    (h : event.Status = env.TX_STATUS_SUCCESS) :
    (∀ spender, env.GetSpenderAddress event.To = Except.ok spender →
      ∃ w1, handleTokenTransfer env (some event) w = Outcome.returned (none, w1)
        ∧ Marked w w1
            [Call.saveBalanceKey event.Sender event.Protocol,
             Call.saveBalanceKey event.From env.NilAddress,
             Call.saveBalanceKey event.Receiver event.Protocol,
             Call.GetSpenderAddress event.To,
             Call.saveAllowanceKey event.Sender event.Protocol spender]
            [(event.Sender, event.Protocol), (event.From, env.NilAddress),
             (event.Receiver, event.Protocol)]
            [(event.Sender, event.Protocol, spender)])
    ∧ (∀ err, env.GetSpenderAddress event.To = Except.error err →
      ∃ w1, handleTokenTransfer env (some event) w = Outcome.returned (none, w1)
        ∧ Marked w w1
            [Call.saveBalanceKey event.Sender event.Protocol,
             Call.saveBalanceKey event.From env.NilAddress,
             Call.saveBalanceKey event.Receiver event.Protocol,
             Call.GetSpenderAddress event.To]
            [(event.Sender, event.Protocol), (event.From, env.NilAddress),
             (event.Receiver, event.Protocol)]
            []) := by
  have base := ((((Marked.start w).thenBalance event.Sender event.Protocol).thenBalance
    event.From env.NilAddress).thenBalance event.Receiver event.Protocol).thenCall
    (Call.GetSpenderAddress event.To)
  constructor
  · intro spender hs
    refine ⟨_, ?_, base.thenAllowance event.Sender event.Protocol spender⟩
    simp [handleTokenTransfer, h, hs]
  · intro err he
    refine ⟨_, ?_, base⟩
    simp [handleTokenTransfer, h, he]

/-- C3 at a successful transfer to the contract at address 7, whose spender is
address 8 in `exampleEnv`. -/
theorem C3_transfer_success_witness :
    (exampleTransfer 2).Status = exampleEnv.TX_STATUS_SUCCESS
    ∧ ∃ w1, handleTokenTransfer exampleEnv (some (exampleTransfer 2)) (worldAt 10)
          = Outcome.returned (none, w1)
        ∧ Marked (worldAt 10) w1
            [Call.saveBalanceKey { val := 3 } { val := 1 },
             Call.saveBalanceKey { val := 2 } { val := 0 },
             Call.saveBalanceKey { val := 4 } { val := 1 },
             Call.GetSpenderAddress { val := 7 },
             Call.saveAllowanceKey { val := 3 } { val := 1 } { val := 8 }]
            [({ val := 3 }, { val := 1 }), ({ val := 2 }, { val := 0 }),
             ({ val := 4 }, { val := 1 })]
            [({ val := 3 }, { val := 1 }, { val := 8 })] :=
  ⟨by decide,
    (C3_transfer_success_marks exampleEnv (exampleTransfer 2) (worldAt 10) (by decide)).1
      { val := 8 } rfl⟩

/-- C7: for every non-nil approval event, `handleApprove` returns nil; when the
status is not success the world is unchanged, and otherwise exactly the
allowance key (owner, protocol, spender) and then the balance key (owner, native
asset) are marked, and nothing else. -/
theorem C7_approve_marks (env : Env) (event : ApprovalEvent) (w : World) :
    (event.Status ≠ env.TX_STATUS_SUCCESS →
      handleApprove env (some event) w = Outcome.returned (none, w))
    ∧ (event.Status = env.TX_STATUS_SUCCESS →
      ∃ w1, handleApprove env (some event) w = Outcome.returned (none, w1)
        ∧ Marked w w1
            [Call.saveAllowanceKey event.Owner event.Protocol event.Spender,
             Call.saveBalanceKey event.Owner env.NilAddress]
            [(event.Owner, env.NilAddress)]
            [(event.Owner, event.Protocol, event.Spender)]) := by
  constructor
  · intro h
    simp [handleApprove, h]
  · intro h
    refine ⟨_, ?_, ((Marked.start w).thenAllowance event.Owner event.Protocol
      event.Spender).thenBalance event.Owner env.NilAddress⟩
    simp [handleApprove, h]

/-- C7 at a successful approval (status 2) in `exampleEnv`. -/
theorem C7_approve_witness :
    (exampleApproval 2).Status = exampleEnv.TX_STATUS_SUCCESS
    ∧ ∃ w1, handleApprove exampleEnv (some (exampleApproval 2)) (worldAt 10)
          = Outcome.returned (none, w1)
        ∧ Marked (worldAt 10) w1
            [Call.saveAllowanceKey { val := 3 } { val := 1 } { val := 8 },
             Call.saveBalanceKey { val := 3 } { val := 0 }]
            [({ val := 3 }, { val := 0 })]
            [({ val := 3 }, { val := 1 }, { val := 8 })] :=
  ⟨by decide, (C7_approve_marks exampleEnv (exampleApproval 2) (worldAt 10)).2 (by decide)⟩

/-- C8: for every non-nil wrap-deposit event `handleWethDeposit` returns nil and,
for every non-nil wrap-withdrawal event, so does `handleWethWithdrawal`; with
status success the deposit marks exactly the balance keys (destination, wrapped
token) and (from, native asset), the withdrawal exactly (source, wrapped token)
and (from, native asset); with any other status the world is unchanged; no
allowance key is marked by either. -/
theorem C8_weth_deposit_withdrawal_marks (env : Env) (deposit : WethDepositEvent)
    (withdrawal : WethWithdrawalEvent) (w : World) :
    (deposit.Status ≠ env.TX_STATUS_SUCCESS →
      handleWethDeposit env (some deposit) w = Outcome.returned (none, w))
    ∧ (deposit.Status = env.TX_STATUS_SUCCESS →
      ∃ w1, handleWethDeposit env (some deposit) w = Outcome.returned (none, w1)
        ∧ Marked w w1
            [Call.saveBalanceKey deposit.Dst deposit.Protocol,
             Call.saveBalanceKey deposit.From env.NilAddress]
            [(deposit.Dst, deposit.Protocol), (deposit.From, env.NilAddress)] [])
    ∧ (withdrawal.Status ≠ env.TX_STATUS_SUCCESS →
      handleWethWithdrawal env (some withdrawal) w = Outcome.returned (none, w))
    ∧ (withdrawal.Status = env.TX_STATUS_SUCCESS →
      ∃ w1, handleWethWithdrawal env (some withdrawal) w = Outcome.returned (none, w1)
        ∧ Marked w w1
            [Call.saveBalanceKey withdrawal.Src withdrawal.Protocol,
             Call.saveBalanceKey withdrawal.From env.NilAddress]
            [(withdrawal.Src, withdrawal.Protocol), (withdrawal.From, env.NilAddress)] []) := by
  refine ⟨?_, ?_, ?_, ?_⟩
  · intro h
    simp [handleWethDeposit, h]
  · intro h
    refine ⟨_, ?_, ((Marked.start w).thenBalance deposit.Dst deposit.Protocol).thenBalance
      deposit.From env.NilAddress⟩
    simp [handleWethDeposit, h]
  · intro h
    simp [handleWethWithdrawal, h]
  · intro h
    refine ⟨_, ?_, ((Marked.start w).thenBalance withdrawal.Src
      withdrawal.Protocol).thenBalance withdrawal.From env.NilAddress⟩
    simp [handleWethWithdrawal, h]

/-- C8 at a successful deposit and a successful withdrawal in `exampleEnv`. -/
theorem C8_weth_witness :
    (∃ w1, handleWethDeposit exampleEnv (some (exampleDeposit 2)) (worldAt 10)
          = Outcome.returned (none, w1)
        ∧ Marked (worldAt 10) w1
            [Call.saveBalanceKey { val := 5 } { val := 9 },
             Call.saveBalanceKey { val := 2 } { val := 0 }]
            [({ val := 5 }, { val := 9 }), ({ val := 2 }, { val := 0 })] [])
    ∧ (∃ w1, handleWethWithdrawal exampleEnv (some (exampleWithdrawal 2)) (worldAt 10)
          = Outcome.returned (none, w1)
        ∧ Marked (worldAt 10) w1
            [Call.saveBalanceKey { val := 6 } { val := 9 },
             Call.saveBalanceKey { val := 2 } { val := 0 }]
            [({ val := 6 }, { val := 9 }), ({ val := 2 }, { val := 0 })] []) :=
  ⟨(C8_weth_deposit_withdrawal_marks exampleEnv (exampleDeposit 2) (exampleWithdrawal 2)
      (worldAt 10)).2.1 (by decide),
   (C8_weth_deposit_withdrawal_marks exampleEnv (exampleDeposit 2) (exampleWithdrawal 2)
      (worldAt 10)).2.2.2 (by decide)⟩

/-- C9: for every plain native-asset transfer event, `handleEthTransfer` returns
nil after marking exactly the balance keys (from, native asset) and (to, native
asset) and no allowance key; the status of the event plays no part, so two
events that differ only in status leave the same world. -/
theorem C9_eth_transfer_marks (env : Env) (event : TransferEvent) (w : World) :
    (∃ w1, handleEthTransfer env (some event) w = Outcome.returned (none, w1)
      ∧ Marked w w1
          [Call.saveBalanceKey event.From env.NilAddress,
           Call.saveBalanceKey event.To env.NilAddress]
          [(event.From, env.NilAddress), (event.To, env.NilAddress)] [])
    ∧ (∀ status : TxStatus,
        handleEthTransfer env (some { event with Status := status }) w
          = handleEthTransfer env (some event) w) := by
  constructor
  · exact ⟨_, rfl, ((Marked.start w).thenBalance event.From env.NilAddress).thenBalance
      event.To env.NilAddress⟩
  · intro status
    rfl

/-- C10 (as the code behaves): a nil event is dropped with a nil error and an
unchanged world by `handleTokenTransfer`, `handleWethDeposit` and
`handleWethWithdrawal`, but `handleApprove` panics on it: its log call reads
`event.Protocol` and `event.Owner` before the nil test. -/
theorem C10_nil_event_approve_panics (env : Env) (w : World) :
    handleTokenTransfer env none w = Outcome.returned (none, w)
    ∧ handleWethDeposit env none w = Outcome.returned (none, w)
    ∧ handleWethWithdrawal env none w = Outcome.returned (none, w)
    ∧ handleApprove env none w = Outcome.panic :=
  ⟨rfl, rfl, rfl, rfl⟩

/-! ## Fork replay -/

theorem forkLoop_done (forkBlock i : Int) (calls : List Call) (h : i < forkBlock) :
    forkLoop forkBlock i calls = calls := by
  rw [forkLoop]
  simp [not_le.mpr h]

theorem forkLoop_round (forkBlock i : Int) (calls : List Call) (h : forkBlock ≤ i) :
    forkLoop forkBlock i calls
      = forkLoop forkBlock (i - 1) (calls ++ forkReconciliation i) := by
  rw [forkLoop]
  simp [h, forkReconciliation, ChangedOfBlock.syncAndSaveBalances,
    ChangedOfBlock.syncAndSaveAllowances, ChangedOfBlock.zero]

theorem forkBlocks_done (forkBlock i : Int) (h : i < forkBlock) : forkBlocks i forkBlock = [] := by
  have : (i - forkBlock + 1).toNat = 0 := by omega
  simp [forkBlocks, this]

theorem forkBlocks_round (forkBlock i : Int) (h : forkBlock ≤ i) :
    forkBlocks i forkBlock = i :: forkBlocks (i - 1) forkBlock := by
  have hn : (i - forkBlock + 1).toNat = (i - 1 - forkBlock + 1).toNat + 1 := by omega
  unfold forkBlocks
  rw [hn, List.range_succ_eq_map]
  simp only [List.map_cons, List.map_map, Nat.cast_zero, sub_zero, List.cons.injEq, true_and]
  apply List.map_congr_left
  intro k _
  simp only [Function.comp_apply, Nat.cast_succ]
  omega

theorem forkLoop_eq (n : Nat) :
    ∀ (forkBlock i : Int) (calls : List Call), (i - forkBlock + 1).toNat = n →
      forkLoop forkBlock i calls
        = calls ++ (forkBlocks i forkBlock).flatMap forkReconciliation := by
  induction n with
  | zero =>
    intro forkBlock i calls hn
    have h : i < forkBlock := by omega
    rw [forkLoop_done forkBlock i calls h, forkBlocks_done forkBlock i h]
    simp
  | succ n ih =>
    intro forkBlock i calls hn
    have h : forkBlock ≤ i := by omega
    rw [forkLoop_round forkBlock i calls h, forkBlocks_round forkBlock i h,
      ih forkBlock (i - 1) _ (by omega)]
    simp [List.flatMap_cons]

theorem forkBlocks_length (detectedBlock forkBlock : Int) (h : forkBlock ≤ detectedBlock) :
    ((forkBlocks detectedBlock forkBlock).length : Int) = detectedBlock - forkBlock + 1 := by
  unfold forkBlocks
  rw [List.length_map, List.length_range]
  omega

theorem forkBlocks_get (detectedBlock forkBlock : Int) (k : Nat)
    (h : (k : Int) ≤ detectedBlock - forkBlock) :
    (forkBlocks detectedBlock forkBlock)[k]? = some (detectedBlock - (k : Int)) := by
  have hk : k < (detectedBlock - forkBlock + 1).toNat := by omega
  unfold forkBlocks
  rw [List.getElem?_map, List.getElem?_range hk]
  rfl

/-- C1: for every fork event with detectedBlock >= forkBlock, `handleBlockFork`
returns (nil) having made, after the calls already made, exactly the
reconciliations of the blocks `forkBlocks detectedBlock forkBlock`, each
`syncAndSaveBalances` followed by `syncAndSaveAllowances` for that block; that
list has detectedBlock - forkBlock + 1 entries and its k-th entry is
detectedBlock - k, so the blocks are detectedBlock, detectedBlock-1, ...,
forkBlock in descending order with none skipped; the manager is unchanged. -/
theorem C1_fork_replays_descending_range (detectedBlock forkBlock : Int) (w : World)
    (h : forkBlock ≤ detectedBlock) :
    handleBlockFork (some { DetectedBlock := some detectedBlock, ForkBlock := some forkBlock }) w
      = Outcome.returned (none,
          { w with calls := w.calls
              ++ (forkBlocks detectedBlock forkBlock).flatMap forkReconciliation })
    ∧ ((forkBlocks detectedBlock forkBlock).length : Int) = detectedBlock - forkBlock + 1
    ∧ (∀ k : Nat, (k : Int) ≤ detectedBlock - forkBlock →
        (forkBlocks detectedBlock forkBlock)[k]? = some (detectedBlock - (k : Int))) := by
  refine ⟨?_, forkBlocks_length detectedBlock forkBlock h, ?_⟩
  · simp only [handleBlockFork]
    rw [forkLoop_eq _ forkBlock detectedBlock w.calls rfl]
  · intro k hk
    exact forkBlocks_get detectedBlock forkBlock k hk

/-- C1 at detectedBlock = 105 and forkBlock = 100: six reconciliations, for the
blocks 105, 104, 103, 102, 101, 100 in that order. -/
theorem C1_fork_105_100_witness :
    (100 : Int) ≤ 105
    ∧ handleBlockFork (some { DetectedBlock := some 105, ForkBlock := some 100 }) (worldAt 105)
      = Outcome.returned (none,
          { worldAt 105 with calls :=
              [Call.syncAndSaveBalances (some 105), Call.syncAndSaveAllowances (some 105),
               Call.syncAndSaveBalances (some 104), Call.syncAndSaveAllowances (some 104),
               Call.syncAndSaveBalances (some 103), Call.syncAndSaveAllowances (some 103),
               Call.syncAndSaveBalances (some 102), Call.syncAndSaveAllowances (some 102),
               Call.syncAndSaveBalances (some 101), Call.syncAndSaveAllowances (some 101),
               Call.syncAndSaveBalances (some 100), Call.syncAndSaveAllowances (some 100)] })
    ∧ forkBlocks 105 100 = [105, 104, 103, 102, 101, 100] := by
  have hb : forkBlocks 105 100 = [105, 104, 103, 102, 101, 100] := by decide
  refine ⟨by decide, ?_, hb⟩
  rw [(C1_fork_replays_descending_range 105 100 (worldAt 105) (by decide)).1, hb]
  rfl

/-! ## What the handlers leave alone -/

theorem Framed.same (w : World) : Framed w w := ⟨rfl, rfl, rfl⟩

theorem Framed.andThen {w w1 w2 : World} (h1 : Framed w w1) (h2 : Framed w1 w2) : Framed w w2 :=
  ⟨h2.1.trans h1.1, h2.2.1.trans h1.2.1, h2.2.2.trans h1.2.2⟩

theorem Framed.of_marked {w w1 : World} {calls : List Call} {bal : List BalanceKey}
    {allow : List AllowanceKey} (h : Marked w w1 calls bal allow) : Framed w w1 :=
  ⟨h.2.2.2.1, h.2.2.2.2.1, h.2.2.2.2.2⟩

theorem framed_saveBalanceKey (w : World) (owner token : Address) :
    Framed w (w.saveBalanceKey owner token) :=
  Framed.of_marked ((Marked.start w).thenBalance owner token)

theorem framed_saveAllowanceKey (w : World) (owner token spender : Address) :
    Framed w (w.saveAllowanceKey owner token spender) :=
  Framed.of_marked ((Marked.start w).thenAllowance owner token spender)

theorem framed_calls (w : World) (calls : List Call) : Framed w { w with calls := calls } :=
  ⟨rfl, rfl, rfl⟩

theorem framed_handleTokenTransfer (env : Env) (input : Option TransferEvent) (w : World)
    (r : Option String × World) (h : handleTokenTransfer env input w = Outcome.returned r) :
    Framed w r.2 := by
  unfold handleTokenTransfer at h
  split at h
  · cases h
    exact Framed.same w
  · rename_i event
    split at h
    · cases h
      exact Framed.same w
    · have base : Framed w
          { ((w.saveBalanceKey event.Sender event.Protocol).saveBalanceKey event.From
              env.NilAddress).saveBalanceKey event.Receiver event.Protocol with
            calls := (((w.saveBalanceKey event.Sender event.Protocol).saveBalanceKey event.From
              env.NilAddress).saveBalanceKey event.Receiver event.Protocol).calls
              ++ [Call.GetSpenderAddress event.To] } :=
        (((framed_saveBalanceKey w _ _).andThen (framed_saveBalanceKey _ _ _)).andThen
          (framed_saveBalanceKey _ _ _)).andThen (framed_calls _ _)
      split at h
      · cases h
        exact base.andThen (framed_saveAllowanceKey _ _ _ _)
      · cases h
        exact base

theorem framed_handleApprove (env : Env) (input : Option ApprovalEvent) (w : World)
    (r : Option String × World) (h : handleApprove env input w = Outcome.returned r) :
    Framed w r.2 := by
  unfold handleApprove at h
  split at h
  · cases h
  · split at h
    · cases h
      exact Framed.same w
    · cases h
      exact (framed_saveAllowanceKey w _ _ _).andThen (framed_saveBalanceKey _ _ _)

theorem framed_handleWethDeposit (env : Env) (input : Option WethDepositEvent) (w : World)
    (r : Option String × World) (h : handleWethDeposit env input w = Outcome.returned r) :
    Framed w r.2 := by
  unfold handleWethDeposit at h
  split at h
  · cases h
    exact Framed.same w
  · split at h
    · cases h
      exact Framed.same w
    · cases h
      exact (framed_saveBalanceKey w _ _).andThen (framed_saveBalanceKey _ _ _)

theorem framed_handleWethWithdrawal (env : Env) (input : Option WethWithdrawalEvent) (w : World)
    (r : Option String × World) (h : handleWethWithdrawal env input w = Outcome.returned r) :
    Framed w r.2 := by
  unfold handleWethWithdrawal at h
  split at h
  · cases h
    exact Framed.same w
  · split at h
    · cases h
      exact Framed.same w
    · cases h
      exact (framed_saveBalanceKey w _ _).andThen (framed_saveBalanceKey _ _ _)

theorem framed_handleEthTransfer (env : Env) (input : Option TransferEvent) (w : World)
    (r : Option String × World) (h : handleEthTransfer env input w = Outcome.returned r) :
    Framed w r.2 := by
  unfold handleEthTransfer at h
  split at h
  · cases h
  · cases h
    exact (framed_saveBalanceKey w _ _).andThen (framed_saveBalanceKey _ _ _)

theorem framed_handleBlockEnd (input : Option BlockEvent) (w : World)
    (r : Option String × World) (h : handleBlockEnd input w = Outcome.returned r) :
    Framed w r.2 := by
  unfold handleBlockEnd at h
  split at h
  · cases h
  · cases h
    exact ⟨rfl, rfl, rfl⟩

theorem framed_handleBlockFork (input : Option ForkedEvent) (w : World)
    (r : Option String × World) (h : handleBlockFork input w = Outcome.returned r) :
    Framed w r.2 := by
  unfold handleBlockFork at h
  split at h
  · cases h
  · split at h
    · cases h
    · split at h
      · cases h
      · cases h
        exact ⟨rfl, rfl, rfl⟩

theorem framed_UnlockedWallet (env : Env) (owner : String) (w : World)
    (r : Option String × World) (h : UnlockedWallet env owner w = Outcome.returned r) :
    Framed w r.2 := by
  unfold UnlockedWallet at h
  split at h
  · cases h
    exact Framed.same w
  · cases h
    exact ⟨rfl, rfl, rfl⟩

/-- The result of `handleBlockNew` when it returns. -/
theorem handleBlockNew_returned (input : Option BlockEvent) (w : World)
    (r : Option String × World) (h : handleBlockNew input w = Outcome.returned r) :
    ∃ n, input = some { BlockNumber := some n }
      ∧ r.2.BlockCursor = some n
      ∧ r.2.manager.block.cachedDuration = w.manager.block.cachedDuration
      ∧ r.2.manager.cacheDuration = w.manager.cacheDuration := by
  unfold handleBlockNew at h
  split at h
  · cases h
  · rename_i event
    split at h
    · cases h
    · rename_i n hn
      cases h
      refine ⟨n, ?_, rfl, rfl, rfl⟩
      cases event
      simp only at hn
      rw [hn]

/-- One action: either it is a block-new event carrying `n` and the cursor
becomes `n`, or the cursor stays; the two durations stay in both cases. -/
theorem step_cursor (env : Env) (a : Action) (w : World) (r : Option String × World)
    (h : step env a w = Outcome.returned r) :
    (r.2.manager.block.cachedDuration = w.manager.block.cachedDuration
      ∧ r.2.manager.cacheDuration = w.manager.cacheDuration)
    ∧ ((∃ n, a = Action.emit (Event.Block_New (some { BlockNumber := some n }))
          ∧ r.2.BlockCursor = some n)
      ∨ ((∀ rest, blockNewNumbers (a :: rest) = blockNewNumbers rest)
          ∧ r.2.BlockCursor = w.BlockCursor)) := by
  cases a with
  | UnlockedWallet owner =>
    have f := framed_UnlockedWallet env owner w r h
    exact ⟨f.2, Or.inr ⟨fun _ => rfl, f.1⟩⟩
  | emit ev =>
    cases ev with
    | Transfer e =>
      have f := framed_handleTokenTransfer env e w r h
      exact ⟨f.2, Or.inr ⟨fun _ => rfl, f.1⟩⟩
    | Approve e =>
      have f := framed_handleApprove env e w r h
      exact ⟨f.2, Or.inr ⟨fun _ => rfl, f.1⟩⟩
    | EthTransfer e =>
      have f := framed_handleEthTransfer env e w r h
      exact ⟨f.2, Or.inr ⟨fun _ => rfl, f.1⟩⟩
    | Block_End e =>
      have f := framed_handleBlockEnd e w r h
      exact ⟨f.2, Or.inr ⟨fun _ => rfl, f.1⟩⟩
    | Block_New e =>
      obtain ⟨n, he, hc, hd, ht⟩ := handleBlockNew_returned e w r h
      exact ⟨⟨hd, ht⟩, Or.inl ⟨n, by rw [he], hc⟩⟩
    | WethDeposit e =>
      have f := framed_handleWethDeposit env e w r h
      exact ⟨f.2, Or.inr ⟨fun _ => rfl, f.1⟩⟩
    | WethWithdrawal e =>
      have f := framed_handleWethWithdrawal env e w r h
      exact ⟨f.2, Or.inr ⟨fun _ => rfl, f.1⟩⟩
    | ChainForkDetected e =>
      have f := framed_handleBlockFork e w r h
      exact ⟨f.2, Or.inr ⟨fun _ => rfl, f.1⟩⟩

/-- Along a run the retention window and the unlock TTL of the manager stay. -/
theorem run_durations (env : Env) (acts : List Action) :
    ∀ (w w1 : World), run env acts w = Outcome.returned w1 →
      w1.manager.block.cachedDuration = w.manager.block.cachedDuration
      ∧ w1.manager.cacheDuration = w.manager.cacheDuration := by
  induction acts with
  | nil =>
    intro w w1 h
    cases h
    exact ⟨rfl, rfl⟩
  | cons a rest ih =>
    intro w w1 h
    unfold run at h
    split at h
    · rename_i r hr
      have h1 := (step_cursor env a w r hr).1
      have h2 := ih r.2 w1 h
      exact ⟨h2.1.trans h1.1, h2.2.trans h1.2⟩
    · cases h

/-- What `Initialize` returns when the packages are ready. -/
theorem Initialize_ok (env : Env) (options : AccountManagerOptions) (m : AccountManager)
    (h : Initialize env options = Except.ok m) :
    m.block.cachedDuration = some 500
    ∧ m.block.currentBlockNumber = none
    ∧ m.cacheDuration
        = if options.CacheDuration > 0 then options.CacheDuration else 8640000 := by
  unfold Initialize at h
  split at h
  · cases h
  · cases h
    exact ⟨rfl, rfl, rfl⟩

/-- In a reachable world the retention window is 500 blocks and the unlock TTL
is the configured one. -/
theorem reachable_durations (env : Env) (options : AccountManagerOptions) (w : World)
    (h : Reachable env options w) :
    w.manager.block.cachedDuration = some 500
    ∧ w.manager.cacheDuration
        = if options.CacheDuration > 0 then options.CacheDuration else 8640000 := by
  obtain ⟨m, acts, hinit, hrun⟩ := h
  have hi := Initialize_ok env options m hinit
  have hr := run_durations env acts _ w hrun
  exact ⟨hr.1.trans hi.1, hr.2.trans hi.2.2⟩

/-! ## Wallet unlock -/

/-- C4: `UnlockedWallet` returns an error exactly when `common.IsHexAddress`
rejects the owner string, and then the world is unchanged (no store write); when
the string is accepted it returns nil after exactly one call, the store write of
"true" under the unlock key of the parsed address with the manager's
`cacheDuration` as TTL; in a world reachable from `Initialize` that TTL is the
configured `CacheDuration` when positive and 8640000 seconds otherwise. -/
theorem C4_unlocked_wallet (env : Env) (owner : String) (w : World) :
    (env.IsHexAddress owner = false →
      UnlockedWallet env owner w
        = Outcome.returned (some "owner isn't a valid hex-address", w))
    ∧ (env.IsHexAddress owner = true →
      UnlockedWallet env owner w
        = Outcome.returned (none,
            { w with calls := w.calls ++
                [Call.cacheSet (env.unlockCacheKey (env.HexToAddress owner)) "true"
                  w.manager.cacheDuration] }))
    ∧ ((∃ err w1, UnlockedWallet env owner w = Outcome.returned (some err, w1))
        ↔ env.IsHexAddress owner = false)
    ∧ (∀ options, Reachable env options w →
        w.manager.cacheDuration
          = if options.CacheDuration > 0 then options.CacheDuration else 8640000) := by
  refine ⟨?_, ?_, ?_, ?_⟩
  · intro h
    simp [UnlockedWallet, h]
  · intro h
    simp [UnlockedWallet, h]
  · constructor
    · rintro ⟨err, w1, h⟩
      cases hx : env.IsHexAddress owner
      · rfl
      · simp [UnlockedWallet, hx] at h
    · intro h
      exact ⟨"owner isn't a valid hex-address", w, by simp [UnlockedWallet, h]⟩
  · intro options hr
    exact (reachable_durations env options w hr).2

/-- C4 in `exampleEnv`, for a manager with a 60-second TTL: "not-an-address" is
refused with no store write, and a well-formed address is written once. -/
theorem C4_unlocked_wallet_witness :
    UnlockedWallet exampleEnv "not-an-address" (worldAt 10)
      = Outcome.returned (some "owner isn't a valid hex-address", worldAt 10)
    ∧ UnlockedWallet exampleEnv "0x00000000000000000000000000000000000000ff" (worldAt 10)
      = Outcome.returned (none,
          { worldAt 10 with calls :=
              [Call.cacheSet (exampleEnv.unlockCacheKey { val := 255 }) "true" 60] }) := by
  constructor
  · exact (C4_unlocked_wallet exampleEnv "not-an-address" (worldAt 10)).1 (by decide)
  · have h := (C4_unlocked_wallet exampleEnv "0x00000000000000000000000000000000000000ff"
      (worldAt 10)).2.1 (by decide)
    rw [h]
    have ha : exampleEnv.HexToAddress "0x00000000000000000000000000000000000000ff"
        = { val := 255 } := by decide
    rw [ha]
    rfl

/-! ## Block lifecycle -/

/-- C5 fails as stated: with the cursor at 10, a block-new event for block 5
is accepted and leaves the cursor at 5, below the cursor before it; and the two
non-fork events block-new 10, block-new 5 drive the cursor of a fresh manager to
10 and then back to 5. -/
theorem C5_cursor_moves_backward :
    handleBlockNew (some { BlockNumber := some 5 }) (worldAt 10)
      = Outcome.returned (none, worldAt 5)
    ∧ (worldAt 10).BlockCursor = some 10
    ∧ (worldAt 5).BlockCursor = some 5
    ∧ cursorLE (worldAt 10).BlockCursor (worldAt 5).BlockCursor = false
    ∧ cursorsAlong exampleEnv backwardBlocks { manager := exampleManager, calls := [] }
        = [some 10, some 5] := by
  decide

/-- The cursors of a run are non-decreasing when the block numbers delivered
are, starting from the cursor. -/
theorem cursorsAlong_chain (env : Env) (acts : List Action) :
    ∀ (w : World),
      List.Chain' (fun a b : Int => a ≤ b) (w.BlockCursor.toList ++ blockNewNumbers acts) →
      List.Chain (fun a b => cursorLE a b = true) w.BlockCursor (cursorsAlong env acts w) := by
  induction acts with
  | nil =>
    intro w _
    exact List.Chain.nil
  | cons a rest ih =>
    intro w hc
    unfold cursorsAlong
    split
    · rename_i r hr
      rcases (step_cursor env a w r hr).2 with ⟨n, ha, hn⟩ | ⟨hb, hs⟩
      · subst ha
        have hc1 : List.Chain' (fun a b : Int => a ≤ b)
            (w.BlockCursor.toList ++ n :: blockNewNumbers rest) := hc
        refine List.Chain.cons ?_ (ih r.2 ?_)
        · rw [hn]
          cases hw : w.BlockCursor with
          | none => rfl
          | some c =>
            rw [hw] at hc1
            have : c ≤ n := by
              simpa [Option.toList] using (List.chain'_cons.mp hc1).1
            simpa [cursorLE] using this
        · rw [hn]
          cases hw : w.BlockCursor with
          | none =>
            rw [hw] at hc1
            simpa [Option.toList] using hc1
          | some c =>
            rw [hw] at hc1
            simpa [Option.toList] using (List.chain'_cons.mp hc1).2
      · refine List.Chain.cons ?_ (ih r.2 ?_)
        · rw [hs]
          cases w.BlockCursor with
          | none => rfl
          | some c => simp [cursorLE]
        · rw [hs, ← hb rest]
          exact hc
    · exact List.Chain.nil

/-- C5 (amended): for every world and every block-new event carrying a block
number `n`, `handleBlockNew` returns nil with the cursor equal to `n`, no call
made and nothing else of the manager changed; so the cursor after is at or above
the cursor before exactly when `n` is; and over any sequence of actions whose
block-new numbers are non-decreasing and start at or above the cursor, the
cursor is non-decreasing from each action to the next. -/
theorem C5_block_new_sets_cursor (env : Env) (event : BlockEvent) (n : Int) (w : World)
    (h : event.BlockNumber = some n) :
    (∃ w1, handleBlockNew (some event) w = Outcome.returned (none, w1)
      ∧ w1.BlockCursor = some n
      ∧ w1.calls = w.calls
      ∧ w1.manager.block.balanceKeys = w.manager.block.balanceKeys
      ∧ w1.manager.block.allowanceKeys = w.manager.block.allowanceKeys
      ∧ w1.manager.block.cachedDuration = w.manager.block.cachedDuration
      ∧ w1.manager.cacheDuration = w.manager.cacheDuration
      ∧ (cursorLE w.BlockCursor w1.BlockCursor = true ↔ cursorLE w.BlockCursor (some n) = true))
    ∧ (∀ (acts : List Action) (w0 : World),
        List.Chain' (fun a b : Int => a ≤ b) (w0.BlockCursor.toList ++ blockNewNumbers acts) →
        List.Chain (fun a b => cursorLE a b = true) w0.BlockCursor
          (cursorsAlong env acts w0)) := by
  constructor
  · refine ⟨{ w with manager := { w.manager with
        block := { w.manager.block with currentBlockNumber := some n } } },
      ?_, rfl, rfl, rfl, rfl, rfl, rfl, Iff.rfl⟩
    simp [handleBlockNew, h]
  · intro acts w0 hc
    exact cursorsAlong_chain env acts w0 hc

/-- C5 (amended) at the cursor 10 and a block-new event for block 12. -/
theorem C5_block_new_witness :
    (BlockEvent.mk (some 12)).BlockNumber = some 12
    ∧ ∃ w1, handleBlockNew (some { BlockNumber := some 12 }) (worldAt 10)
          = Outcome.returned (none, w1)
        ∧ w1.BlockCursor = some 12
        ∧ w1.calls = (worldAt 10).calls
        ∧ w1.manager.block.balanceKeys = (worldAt 10).manager.block.balanceKeys
        ∧ w1.manager.block.allowanceKeys = (worldAt 10).manager.block.allowanceKeys
        ∧ w1.manager.block.cachedDuration = (worldAt 10).manager.block.cachedDuration
        ∧ w1.manager.cacheDuration = (worldAt 10).manager.cacheDuration
        ∧ (cursorLE (worldAt 10).BlockCursor w1.BlockCursor = true
            ↔ cursorLE (worldAt 10).BlockCursor (some 12) = true) :=
  ⟨rfl, (C5_block_new_sets_cursor exampleEnv { BlockNumber := some 12 } 12 (worldAt 10) rfl).1⟩

/-- C6: in every world reachable from `Initialize`, for every block-end event,
`handleBlockEnd` returns nil after exactly three calls, in this order:
`syncAndSaveBalances` and then `syncAndSaveAllowances` of the manager's pending
state for the current cursor, each clearing its dirty set, and then one
`removeExpiredBlock` with the current cursor and the 500-block window; the event
does not occur in the result, so its block number has no influence. -/
theorem C6_block_end_reconciles_then_sweeps (env : Env) (options : AccountManagerOptions)
    (event : BlockEvent) (w : World) (h : Reachable env options w) :
    handleBlockEnd (some event) w
      = Outcome.returned (none,
          { manager := { w.manager with
              block := { w.manager.block with balanceKeys := [], allowanceKeys := [] } }
            calls := w.calls ++
              [Call.syncAndSaveBalances w.BlockCursor,
               Call.syncAndSaveAllowances w.BlockCursor,
               Call.removeExpiredBlock w.BlockCursor (some 500)] }) := by
  have hd := (reachable_durations env options w h).1
  simp [handleBlockEnd, World.syncAndSaveBalances, World.syncAndSaveAllowances,
    ChangedOfBlock.syncAndSaveBalances, ChangedOfBlock.syncAndSaveAllowances,
    removeExpiredBlock, World.BlockCursor, hd]

/-- C6 in `exampleEnv`, after block-new 7 and a successful approval: a block-end
event for block 99 reconciles and sweeps block 7 with window 500. -/
theorem C6_block_end_witness :
    Reachable exampleEnv { CacheDuration := 60 } exampleWorld
    ∧ handleBlockEnd (some { BlockNumber := some 99 }) exampleWorld
      = Outcome.returned (none,
          { manager :=
              { cacheDuration := 60
                block :=
                  { currentBlockNumber := some 7, cachedDuration := some 500,
                    balanceKeys := [], allowanceKeys := [] } }
            calls :=
              [Call.saveAllowanceKey { val := 3 } { val := 1 } { val := 8 },
               Call.saveBalanceKey { val := 3 } { val := 0 },
               Call.syncAndSaveBalances (some 7),
               Call.syncAndSaveAllowances (some 7),
               Call.removeExpiredBlock (some 7) (some 500)] }) := by
  have hr : Reachable exampleEnv { CacheDuration := 60 } exampleWorld :=
    ⟨exampleManager, exampleActs, rfl, by decide⟩
  refine ⟨hr, ?_⟩
  rw [C6_block_end_reconciles_then_sweeps exampleEnv { CacheDuration := 60 }
    { BlockNumber := some 99 } exampleWorld hr]
  rfl

end accountmanager
